import Mathlib

/-!
Verification of the immo-api ingestion pipeline and statistics engine.

The JavaScript sources are embedded shallowly:
* JS numbers are modelled as `Option ℚ`, where `none` stands for a
  non-finite value (`NaN` / `Infinity`); comparisons against `NaN` are
  `false`, as in JS (`jsLt`, `jsGt`).
* A raw JSON field that the code guards with a truthiness test and then
  parses with `parseFloat` is modelled by `RawField`: falsy, present but
  not parseable (`parseFloat` gives `NaN`), or parseable to a rational.
* `Math.round` is `jsRound` (floor of `x + 1/2`, i.e. half-up, as in JS).
* `Math.random()` and `Date.now()` are explicit parameters (`rand`,
  `now`): each call site of the JS code corresponds to one supplied
  value, which makes data dependence on the random generator provable.
* The Prisma database is an abstract state `DB` threaded through an
  `upsert` oracle that may fail (`Except Unit DB`); the HTTP fetch of
  one partition is a `fetch` oracle that may fail or return no data.
* Numeric-to-string rendering inside presentation-only fields (`title`,
  `description`) is abstracted by `toString`; no claim depends on the
  exact digit rendering.
-/

namespace ImmoApi

/-- A raw JSON field as the DVF normalizer sees it: `absent` is any falsy
value (missing, `null`, `""`, the number `0`), `nan` is a truthy value
whose `parseFloat` is `NaN`, and `num q` is a truthy value parsing to the
rational `q`. -/
inductive RawField where
  | absent : RawField
  | nan : RawField
  | num : ℚ → RawField
deriving DecidableEq

/-- JS truthiness test `!field` used by the guards in `mutationToProperty`. -/
def RawField.isFalsy : RawField → Bool
  | .absent => true
  | _ => false

/-- `parseFloat` on a field; `none` models `NaN`.  In the code it is only
applied after a truthiness guard, so the `absent` case is unreachable there. -/
def RawField.parseFloat : RawField → Option ℚ
  | .absent => none
  | .nan => none
  | .num q => some q

/-- JS `<` with `NaN` semantics: any comparison against `NaN` is `false`. -/
def jsLt : Option ℚ → ℚ → Bool
  | none, _ => false
  | some a, b => decide (a < b)

/-- JS `>` with `NaN` semantics: any comparison against `NaN` is `false`. -/
def jsGt : Option ℚ → ℚ → Bool
  | none, _ => false
  | some a, b => decide (b < a)

/-- JS `Math.round`: round half toward positive infinity.
(`Rat.floor` is used so the definition evaluates by kernel reduction;
`jsRound_eq_floor` identifies it with the mathematical floor.) -/
def jsRound (q : ℚ) : ℤ := Rat.floor (q + 1/2)

/-- JS division on possibly-`NaN` numbers; `none` also absorbs the
division-by-zero case (JS `Infinity`), which is unreachable after the
surface bound check `surface < 9`. -/
def jsDiv : Option ℚ → Option ℚ → Option ℚ
  | some a, some b => if b = 0 then none else some (a / b)
  | _, _ => none

/-- `Math.round` lifted to possibly-non-finite numbers. -/
def jsRoundOpt (x : Option ℚ) : Option ℤ := x.map jsRound

/-- Render a JS number into a template string (`NaN` prints as `"NaN"`). -/
def jsNumToString : Option ℚ → String
  | none => "NaN"
  | some q => toString q

/-- One raw DVF mutation record (the fields `mutationToProperty` reads).
`Option` fields model JS falsy-vs-truthy string/number fields; integer
fields already parsed by `parseInt` in the code are stored parsed, with
`none` for a falsy source value. -/
structure Mutation where
  valeur_fonciere : RawField
  surface_reelle_bati : RawField
  id_mutation : Option String
  type_local : Option String
  nombre_pieces_principales : Option ℤ
  commune : Option String
  code_postal : Option String
  code_departement : Option String
  latitude : RawField
  longitude : RawField
  date_mutation : Option ℕ
deriving DecidableEq

/-- The normalized `Property` entity produced by the DVF scraper.
`price`, `surface`, `latitude`, `longitude` are `Option ℚ` with `none`
for a non-finite (or, for the coordinates, absent) value;
`pricePerSqm` is `Option ℤ` (`none` = non-finite). -/
structure Property where
  externalId : String
  source : String
  title : String
  description : String
  price : Option ℚ
  pricePerSqm : Option ℤ
  surface : Option ℚ
  rooms : Option ℤ
  bedrooms : Option ℤ
  propertyType : String
  transactionType : String
  city : Option String
  postalCode : Option String
  department : Option String
  region : String
  latitude : Option ℚ
  longitude : Option ℚ
  imageUrls : String
  url : String
  publishedAt : ℕ
  scrapedAt : ℕ
deriving DecidableEq

/-- `TYPE_LOCAL_MAP` from `dvfScraper.js`. -/
def TYPE_LOCAL_MAP : List (String × String) :=
  [("Appartement", "appartement"),
   ("Maison", "maison"),
   ("Dépendance", "dependance"),
   ("Local industriel. commercial ou assimilé", "local_commercial")]

/-- The static department-to-region table of
`DVFScraper.getRegionFromDepartement`, with its `|| 'France'` fallback.
The argument is `none` when `mutation.code_departement` is falsy. -/
def REGIONS : List (String × String) :=
  [("75", "Île-de-France"), ("92", "Île-de-France"), ("93", "Île-de-France"),
   ("94", "Île-de-France"), ("91", "Île-de-France"), ("77", "Île-de-France"),
   ("78", "Île-de-France"), ("95", "Île-de-France"),
   ("69", "Auvergne-Rhône-Alpes"),
   ("13", "Provence-Alpes-Côte d\x27Azur"), ("06", "Provence-Alpes-Côte d\x27Azur"),
   ("33", "Nouvelle-Aquitaine"),
   ("31", "Occitanie"),
   ("44", "Pays de la Loire")]

/-- `DVFScraper.getRegionFromDepartement`. -/
def getRegionFromDepartement : Option String → String
  | none => "France"
  | some d => (REGIONS.lookup d).getD "France"

/-- `TYPE_LOCAL_MAP[mutation.type_local] || 'autre'`. -/
def typeLocalToPropertyType : Option String → String
  | none => "autre"
  | some t => (TYPE_LOCAL_MAP.lookup t).getD "autre"

/-- Render `mutation.nombre_pieces_principales || ''` (falsy prints empty). -/
def nppString : Option ℤ → String
  | none => ""
  | some n => toString n

/-- Render `mutation.nombre_pieces_principales || 'N/A'`. -/
def nppStringNA : Option ℤ → String
  | none => "N/A"
  | some n => toString n

/-- `DVFScraper.mutationToProperty` (dvfScraper.js lines 830-870).
`rand` is the string produced by
`Math.random().toString(36).substr(2, 9)` at this call, and `now` the
value of `Date.now()` / `new Date()` at this call.  The JS local consts
`price = parseFloat(mutation.valeur_fonciere)` and
`surface = parseFloat(mutation.surface_reelle_bati)` (and likewise
`propertyType`, `pricePerSqm`) are inlined at their use sites. -/
def mutationToProperty (rand : String) (now : ℕ) (m : Mutation) : Option Property :=
  if m.valeur_fonciere.isFalsy || m.surface_reelle_bati.isFalsy then none
  else if jsLt m.valeur_fonciere.parseFloat 10000
      || jsGt m.valeur_fonciere.parseFloat 50000000
      || jsLt m.surface_reelle_bati.parseFloat 9
      || jsGt m.surface_reelle_bati.parseFloat 1000 then
    none
  else
    some {
      externalId := "DVF_" ++ (m.id_mutation.getD (toString now)) ++ "_" ++ rand,
      source := "dvf_gouv",
      title := ((m.type_local.getD "Bien") ++ " " ++ nppString m.nombre_pieces_principales
                 ++ " pièces - " ++ (m.commune.getD "France")).trim,
      description := "Vente immobilière à " ++ (m.commune.getD "N/A") ++ " ("
                 ++ (m.code_postal.getD "N/A") ++ "). Surface: "
                 ++ jsNumToString m.surface_reelle_bati.parseFloat ++ "m². "
                 ++ nppStringNA m.nombre_pieces_principales ++ " pièces.",
      price := m.valeur_fonciere.parseFloat,
      pricePerSqm := jsRoundOpt (jsDiv m.valeur_fonciere.parseFloat
                                       m.surface_reelle_bati.parseFloat),
      surface := m.surface_reelle_bati.parseFloat,
      rooms := m.nombre_pieces_principales,
      bedrooms := none,
      propertyType := typeLocalToPropertyType m.type_local,
      transactionType := "vente",
      city := m.commune,
      postalCode := m.code_postal,
      department := m.code_departement,
      region := getRegionFromDepartement m.code_departement,
      latitude := if m.latitude.isFalsy then none else m.latitude.parseFloat,
      longitude := if m.longitude.isFalsy then none else m.longitude.parseFloat,
      imageUrls := "[]",
      url := "https://app.dvf.etalab.gouv.fr/",
      publishedAt := m.date_mutation.getD now,
      scrapedAt := now }

/-- A representative valid raw DVF record, used for concrete evaluations. -/
def sampleMutation : Mutation :=
  { valeur_fonciere := .num 250000,
    surface_reelle_bati := .num 50,
    id_mutation := some "2023-75-0001",
    type_local := some "Appartement",
    nombre_pieces_principales := some 3,
    commune := some "Paris",
    code_postal := some "75001",
    code_departement := some "75",
    latitude := .num (4885/100),
    longitude := .num (235/100),
    date_mutation := some 1700000000 }

/-- `sampleMutation` with the surface field missing from the raw record. -/
def surfaceAbsentMutation : Mutation :=
  { sampleMutation with surface_reelle_bati := .absent }

/-- `sampleMutation` with the department field missing from the raw record. -/
def noDeptMutation : Mutation :=
  { sampleMutation with code_departement := none }

/-- The rejection condition exactly as claim C2 words it, written from the
spec sentences for comparison with the code: the two numeric fields are both
absent, or a present value fails to parse to a number, or a parsed price is
outside [10000, 50000000], or a parsed surface is outside [9, 1000]. -/
def rejectsPerClaimC2 (m : Mutation) : Bool :=
  (m.valeur_fonciere.isFalsy && m.surface_reelle_bati.isFalsy)
  || (!m.valeur_fonciere.isFalsy && m.valeur_fonciere.parseFloat.isNone)
  || (!m.surface_reelle_bati.isFalsy && m.surface_reelle_bati.parseFloat.isNone)
  || (match m.valeur_fonciere.parseFloat with
      | some q => decide (q < 10000) || decide (50000000 < q)
      | none => false)
  || (match m.surface_reelle_bati.parseFloat with
      | some s => decide (s < 9) || decide (1000 < s)
      | none => false)

/-- Run summary returned by `DVFScraper.scrapeAll`. -/
structure ScrapeSummary where
  total : ℕ
  saved : ℕ
  errors : ℕ
  scrapedAt : ℕ
deriving DecidableEq

/-- `DEPARTEMENTS` from dvfScraper.js. -/
def DEPARTEMENTS : List String :=
  ["75", "92", "93", "94", "69", "13", "33", "31", "44", "06"]

/-- The `annees` list of `DVFScraper.scrapeAll`. -/
def ANNEES : List ℕ := [2023, 2022]

/-- `DVFScraper.scrapeDepartement` (dvfScraper.js lines 804-825): one
partition fetch.  `fetch` is the HTTP oracle: `.error` models a thrown
network/timeout error — caught by the `try`/`catch`, yielding `[]` — and
`.ok none` models a response without `resultats` (also `[]`); `.ok (some ms)`
is a successful page of raw mutations. -/
def scrapeDepartement (fetch : String → ℕ → Except String (Option (List Mutation)))
    (codeDepartement : String) (annee : ℕ) : List Mutation :=
  match fetch codeDepartement annee with
  | .error _ => []
  | .ok none => []
  | .ok (some mutations) => mutations

/-- One iteration of the `saveProperties` loop: try the upsert; on success
increment `saved`, on failure leave the database state and increment
`errors`. -/
def upsertStep {DB : Type} (upsert : DB → Property → Except Unit DB)
    (acc : DB × ℕ × ℕ) (prop : Property) : DB × ℕ × ℕ :=
  match upsert acc.1 prop with
  | .ok db2 => (db2, acc.2.1 + 1, acc.2.2)
  | .error _ => (acc.1, acc.2.1, acc.2.2 + 1)

/-- `DVFScraper.saveProperties` (dvfScraper.js lines 891-912): sequential
per-entity upsert keyed by `externalId`, with per-entity error counting.
`upsert` is the Prisma oracle.  Returns the final database state together
with `(saved, errors)`. -/
def saveProperties {DB : Type} (upsert : DB → Property → Except Unit DB)
    (db : DB) (properties : List Property) : DB × ℕ × ℕ :=
  properties.foldl (upsertStep upsert) (db, 0, 0)

/-- The accumulation loop of `DVFScraper.scrapeAll` (lines 922-941): for each
year, for each department, fetch the partition and normalize each raw
mutation (`.map(m => this.mutationToProperty(m)).filter(p => p !== null)`,
i.e. `filterMap`), appending to `totalProperties`.  `seeds dep annee i` is
the `Math.random()` draw consumed by the normalizer for the i-th mutation of
that partition. -/
def scrapeAllProperties (fetch : String → ℕ → Except String (Option (List Mutation)))
    (seeds : String → ℕ → ℕ → String) (now : ℕ) : List Property :=
  ANNEES.foldl
    (fun acc annee =>
      DEPARTEMENTS.foldl
        (fun acc2 dep =>
          acc2 ++ ((scrapeDepartement fetch dep annee).enum.map
            (fun im => mutationToProperty (seeds dep annee im.1) now im.2)).filterMap id)
        acc)
    []

/-- `DVFScraper.scrapeAll` (dvfScraper.js lines 917-964): accumulate all
partitions, bulk-save, and return `{total, saved, errors, scrapedAt}`. -/
def scrapeAll {DB : Type} (fetch : String → ℕ → Except String (Option (List Mutation)))
    (seeds : String → ℕ → ℕ → String) (now : ℕ)
    (upsert : DB → Property → Except Unit DB) (db : DB) : DB × ScrapeSummary :=
  let props := scrapeAllProperties fetch seeds now
  let res := saveProperties upsert db props
  (res.1, { total := props.length, saved := res.2.1, errors := res.2.2, scrapedAt := now })

/-- Scheduler state (`scheduler.js`): the single-flight flag and the records
of the last completed run. -/
structure SchedState where
  isRunning : Bool
  lastRun : Option ℕ
  lastResult : Option ScrapeSummary
deriving DecidableEq

/-- The `Scheduler` constructor's initial state. -/
def initialSchedState : SchedState :=
  { isRunning := false, lastRun := none, lastResult := none }

/-- What one caller of `runScraping` observes at the guard. -/
inductive TriggerOutcome where
  | started : TriggerOutcome
  | alreadyRunning : TriggerOutcome
deriving DecidableEq

/-- The synchronous prefix of `Scheduler.runScraping` (scheduler.js lines
688-693): the guard check and, when idle, the `isRunning = true` transition.
On the JS event loop this check-and-set is atomic — there is no `await`
between the check and the set. -/
def triggerStep (s : SchedState) : SchedState × TriggerOutcome :=
  if s.isRunning then (s, .alreadyRunning)
  else ({ s with isRunning := true }, .started)

/-- The continuation of `Scheduler.runScraping` once the awaited
`dvfScraper.scrapeAll()` promise settles (lines 696-706): on fulfilment,
record `lastRun` (a fresh `new Date()`, the `ℕ` component) and `lastResult`
and return the summary; on rejection return `null` and touch nothing else;
in both cases the `finally` clears `isRunning`. -/
def finishStep (s : SchedState) (completion : Except String (ℕ × ScrapeSummary)) :
    SchedState × Option ScrapeSummary :=
  match completion with
  | .ok tr => ({ s with isRunning := false, lastRun := some tr.1, lastResult := some tr.2 },
               some tr.2)
  | .error _ => ({ s with isRunning := false }, none)

/-- `Scheduler.runScraping` viewed as one synchronous step (guard, run,
completion), adequate for the sequential claims: `action` is the settled
result of the `dvfScraper.scrapeAll()` call. -/
def runScraping (s : SchedState) (action : Except String (ℕ × ScrapeSummary)) :
    SchedState × Option ScrapeSummary :=
  if s.isRunning then (s, none)
  else finishStep { s with isRunning := true } action

/-- One event on the JS event loop touching the Scheduler: a trigger (the
cron timer firing, or a `POST /scrape` request reaching `runScraping`), or
the settlement of the in-flight `scrapeAll()` promise.  A `finish` with no
run in flight cannot occur (there is no pending promise); it is modelled as
a no-op. -/
inductive SchedEvent where
  | trigger : SchedEvent
  | finish : Except String (ℕ × ScrapeSummary) → SchedEvent

/-- Interleaved small-step semantics of the Scheduler.  The `ℕ` component
counts started-but-unfinished `scrapeAll()` invocations — the quantity the
single-flight guard is meant to bound — and the optional outcome is what a
trigger's caller observes. -/
def schedStep (st : SchedState × ℕ) (ev : SchedEvent) :
    (SchedState × ℕ) × Option TriggerOutcome :=
  match ev with
  | .trigger =>
      let r := triggerStep st.1
      ((r.1, if r.2 = TriggerOutcome.started then st.2 + 1 else st.2), some r.2)
  | .finish c =>
      if st.2 = 0 then (st, none)
      else (((finishStep st.1 c).1, st.2 - 1), none)

/-- Run a list of Scheduler events, collecting the outcome each trigger
reported to its caller. -/
def schedRun (st : SchedState × ℕ) (evs : List SchedEvent) :
    (SchedState × ℕ) × List TriggerOutcome :=
  match evs with
  | [] => (st, [])
  | ev :: rest =>
      let r := schedStep st ev
      let r2 := schedRun r.1 rest
      (r2.1, r.2.toList ++ r2.2)

/-- Reported `distanceKm` of the geo search:
`Math.round(distance * 100) / 100` (search.js line 222). -/
def roundedDistanceKm (d : ℚ) : ℚ := (jsRound (d * 100) : ℚ) / 100

/-- The post-query pipeline of `POST /geo` (search.js lines 210-225) over the
rows returned by the bounding-box-pruned database query: `α` is the rest of
the row and the second component is the true haversine distance `6371 * c`
computed at lines 211-217 — taken as an input here, since it is a
transcendental function of the coordinates.  The 2-decimal rounding, the
`distanceKm <= radiusKm` filter and the ascending sort on `distanceKm` are
embedded exactly. -/
def geoFilterSort {α : Type} (radiusKm : ℚ) (rows : List (α × ℚ)) : List (α × ℚ) :=
  ((rows.map (fun rd => (rd.1, roundedDistanceKm rd.2))).filter
      (fun rd => decide (rd.2 ≤ radiusKm))).mergeSort
    (fun a b => decide (a.2 ≤ b.2))

/-- `prices = properties.map(p => p.price).sort((a, b) => a - b)`
(stats.js line 219). -/
def sortPrices (prices : List ℚ) : List ℚ :=
  prices.mergeSort (fun a b => decide (a ≤ b))

/-- One bucket of the `GET /price-distribution` histogram response. -/
structure PriceBucket where
  rangeMin : ℤ
  rangeMax : ℤ
  count : ℕ
  percentage : ℚ
deriving DecidableEq

/-- Membership test of bucket `i` (stats.js line 229): at least `bucketMin`,
and strictly below `bucketMax` except for the last bucket, which is closed
at `bucketMax`. -/
def bucketPred (mn bucketSize : ℚ) (buckets i : ℕ) (p : ℚ) : Bool :=
  decide (mn + (i : ℚ) * bucketSize ≤ p)
    && (if i = buckets - 1 then decide (p ≤ mn + ((i : ℚ) + 1) * bucketSize)
        else decide (p < mn + ((i : ℚ) + 1) * bucketSize))

/-- The `GET /price-distribution` bucket computation (stats.js lines
219-239) on the price list of the filtered rows: sort, take `min`/`max`,
split `[min, max]` into `buckets` equal-width intervals and count
membership; the empty-input case is the route's early return. -/
def priceDistribution (prices0 : List ℚ) (buckets : ℕ) : List PriceBucket :=
  let prices := sortPrices prices0
  if prices.isEmpty then []
  else
    let mn := prices.headD 0
    let mx := prices.getLastD 0
    let bucketSize := (mx - mn) / (buckets : ℚ)
    (List.range buckets).map (fun i =>
      let count := (prices.filter (bucketPred mn bucketSize buckets i)).length
      { rangeMin := jsRound (mn + (i : ℚ) * bucketSize),
        rangeMax := jsRound (mn + ((i : ℚ) + 1) * bucketSize),
        count := count,
        percentage := (jsRound ((count : ℚ) / (prices.length : ℚ) * 100 * 10) : ℚ) / 10 })

/-- A concrete run summary, for witness instantiations. -/
def sampleSummary : ScrapeSummary :=
  { total := 10, saved := 8, errors := 2, scrapedAt := 123 }

/-- The single-flight invariant: a `scrapeAll()` invocation is in flight
exactly when the guard flag is set. -/
def schedInv (st : SchedState × ℕ) : Prop :=
  st.2 = if st.1.isRunning then 1 else 0

theorem jsRound_eq_floor (q : ℚ) : jsRound q = Int.floor (q + 1/2) := by
  rw [jsRound, Rat.floor_def', Rat.floor_def]

/-- Claim C1 (code bug, code evaluated at the failing input): the same raw
DVF record, normalized twice with two different draws of `Math.random()`
(here the draw strings "abc123def" and "xyz789ghi"), produces two different
`externalId`s.  The dedup key is therefore not a function of the raw record,
so re-ingesting the same record upserts under a fresh key and creates a
second stored row instead of updating the existing one. -/
theorem externalId_not_referentially_stable :
    (mutationToProperty "abc123def" 0 sampleMutation).map Property.externalId
      = some "DVF_2023-75-0001_abc123def"
    ∧ (mutationToProperty "xyz789ghi" 0 sampleMutation).map Property.externalId
      = some "DVF_2023-75-0001_xyz789ghi"
    ∧ ("DVF_2023-75-0001_abc123def" : String) ≠ "DVF_2023-75-0001_xyz789ghi" := by
  refine ⟨by decide, by decide, by decide⟩

/-- Claim C2 (counterexample): a record whose price is present and valid but
whose surface is absent is rejected by the code, yet none of the claim's
rejection conditions (both fields absent / parse failure of a present value /
a value out of bounds) holds for it — so the claimed "exactly when"
characterization of rejection is false. -/
theorem normalizer_rejects_beyond_claimed_condition :
    mutationToProperty "abc123def" 0 surfaceAbsentMutation = none
    ∧ rejectsPerClaimC2 surfaceAbsentMutation = false := by
  refine ⟨by decide, by decide⟩

/-- The combined rejection guard of `mutationToProperty`, as one boolean. -/
def rejectGuard (m : Mutation) : Bool :=
  m.valeur_fonciere.isFalsy || m.surface_reelle_bati.isFalsy
    || (jsLt m.valeur_fonciere.parseFloat 10000
        || jsGt m.valeur_fonciere.parseFloat 50000000
        || jsLt m.surface_reelle_bati.parseFloat 9
        || jsGt m.surface_reelle_bati.parseFloat 1000)

theorem mutationToProperty_eq_none_iff (rand : String) (now : ℕ) (m : Mutation) :
    mutationToProperty rand now m = none ↔ rejectGuard m = true := by
  unfold mutationToProperty rejectGuard
  by_cases h1 : (m.valeur_fonciere.isFalsy || m.surface_reelle_bati.isFalsy) = true
  · rw [if_pos h1]
    simp only [Bool.or_eq_true] at h1 ⊢
    tauto
  · rw [if_neg h1]
    by_cases h2 : (jsLt m.valeur_fonciere.parseFloat 10000
        || jsGt m.valeur_fonciere.parseFloat 50000000
        || jsLt m.surface_reelle_bati.parseFloat 9
        || jsGt m.surface_reelle_bati.parseFloat 1000) = true
    · rw [if_pos h2]
      simp only [Bool.or_eq_true] at h2 ⊢
      tauto
    · rw [if_neg h2]
      constructor
      · intro h
        exact absurd h (by simp)
      · intro h
        simp only [Bool.or_eq_true] at h h1 h2
        tauto

theorem mutationToProperty_some_fields (rand : String) (now : ℕ) (m : Mutation)
    (p : Property) (hp : mutationToProperty rand now m = some p) :
    p.price = m.valeur_fonciere.parseFloat
    ∧ p.surface = m.surface_reelle_bati.parseFloat
    ∧ p.pricePerSqm
        = jsRoundOpt (jsDiv m.valeur_fonciere.parseFloat m.surface_reelle_bati.parseFloat)
    ∧ p.region = getRegionFromDepartement m.code_departement := by
  unfold mutationToProperty at hp
  by_cases h1 : (m.valeur_fonciere.isFalsy || m.surface_reelle_bati.isFalsy) = true
  · rw [if_pos h1] at hp
    exact absurd hp (by simp)
  · rw [if_neg h1] at hp
    by_cases h2 : (jsLt m.valeur_fonciere.parseFloat 10000
        || jsGt m.valeur_fonciere.parseFloat 50000000
        || jsLt m.surface_reelle_bati.parseFloat 9
        || jsGt m.surface_reelle_bati.parseFloat 1000) = true
    · rw [if_pos h2] at hp
      exact absurd hp (by simp)
    · rw [if_neg h2] at hp
      obtain rfl : _ = p := Option.some_injective _ hp
      exact ⟨rfl, rfl, rfl, rfl⟩

/-- Claim C2 (amended): the normalizer returns no entity exactly when price
or surface is absent (falsy), or when a parsed price is outside
[10000, 50000000], or a parsed surface is outside [9, 1000]; a present value
that fails to parse (`NaN`) does not by itself cause rejection, because every
`NaN` comparison is false.  For accepted records the parsed values are stored
unchanged (never clamped). -/
theorem mutationToProperty_none_iff (rand : String) (now : ℕ) (m : Mutation) :
    (mutationToProperty rand now m = none ↔
      (m.valeur_fonciere.isFalsy = true ∨ m.surface_reelle_bati.isFalsy = true
        ∨ (∃ q, m.valeur_fonciere.parseFloat = some q ∧ (q < 10000 ∨ 50000000 < q))
        ∨ (∃ s, m.surface_reelle_bati.parseFloat = some s ∧ (s < 9 ∨ 1000 < s))))
    ∧ ∀ p, mutationToProperty rand now m = some p →
        p.price = m.valeur_fonciere.parseFloat
          ∧ p.surface = m.surface_reelle_bati.parseFloat := by
  constructor
  · rw [mutationToProperty_eq_none_iff rand now m]
    unfold rejectGuard
    rcases hv : m.valeur_fonciere <;> rcases hs : m.surface_reelle_bati <;>
      simp [RawField.isFalsy, RawField.parseFloat, jsLt, jsGt] <;> tauto
  · intro p hp
    exact ⟨(mutationToProperty_some_fields rand now m p hp).1,
      (mutationToProperty_some_fields rand now m p hp).2.1⟩

/-- Witness for the amended claim C2 at a concrete input: the record with a
valid price and an absent surface is rejected, via the amended
characterization. -/
theorem mutationToProperty_none_iff_witness :
    mutationToProperty "abc123def" 0 surfaceAbsentMutation = none := by
  exact (mutationToProperty_none_iff "abc123def" 0 surfaceAbsentMutation).1.mpr
    (Or.inr (Or.inl (by decide)))

/-- Claim C3: for every raw record the normalizer accepts whose price parses
to `q` and surface parses to `s`, the produced entity's `pricePerSqm` is
exactly `Math.round(q / s)` — a deterministic function of the parsed pair. -/
theorem pricePerSqm_round_div (rand : String) (now : ℕ) (m : Mutation) (q s : ℚ)
    (p : Property)
    (hq : m.valeur_fonciere.parseFloat = some q)
    (hs : m.surface_reelle_bati.parseFloat = some s)
    (hp : mutationToProperty rand now m = some p) :
    p.pricePerSqm = some (jsRound (q / s)) := by
  have hguard : rejectGuard m = false := by
    by_contra h
    rw [Bool.not_eq_false] at h
    rw [(mutationToProperty_eq_none_iff rand now m).mpr h] at hp
    exact Option.noConfusion hp
  have hfields := mutationToProperty_some_fields rand now m p hp
  rw [hfields.2.2.1, hq, hs]
  have hs9 : ¬ s < 9 := by
    intro hlt
    have hg : rejectGuard m = true := by
      simp [rejectGuard, hs, jsLt, hlt]
    rw [hguard] at hg
    exact Bool.noConfusion hg
  have hs0 : s ≠ 0 := by
    intro h0
    exact hs9 (by rw [h0]; norm_num)
  simp [jsRoundOpt, jsDiv, hs0]

/-- Witness for claim C3 at a concrete input: the sample record with price
250000 and surface 50 yields `pricePerSqm = Math.round(250000 / 50)`. -/
theorem pricePerSqm_round_div_witness :
    (mutationToProperty "abc123def" 0 sampleMutation).map Property.pricePerSqm
      = some (some (jsRound (250000 / 50))) := by
  obtain ⟨p, hp⟩ := Option.isSome_iff_exists.mp
    (show (mutationToProperty "abc123def" 0 sampleMutation).isSome = true by decide)
  rw [hp, Option.map_some']
  exact congrArg some (pricePerSqm_round_div "abc123def" 0 sampleMutation 250000 50 p
    (by decide) (by decide) hp)

/-- Claim C9 (counterexample): for a record with no department, the produced
entity's region is the string "France", not the claimed "unknown". -/
theorem region_fallback_differs_from_claimed_unknown :
    (mutationToProperty "abc123def" 0 noDeptMutation).map Property.region = some "France"
    ∧ ("France" : String) ≠ "unknown" := by
  refine ⟨by decide, by decide⟩

/-- Claim C9 (amended): the produced entity's region is derived from the raw
department code through the static `REGIONS` lookup table, and when the
department is absent or not in the table the fallback region is the string
"France". -/
theorem region_from_department_table (rand : String) (now : ℕ) (m : Mutation)
    (p : Property) (hp : mutationToProperty rand now m = some p) :
    p.region = getRegionFromDepartement m.code_departement
    ∧ getRegionFromDepartement none = "France"
    ∧ ∀ d, REGIONS.lookup d = none → getRegionFromDepartement (some d) = "France" := by
  refine ⟨(mutationToProperty_some_fields rand now m p hp).2.2.2, rfl, ?_⟩
  intro d hd
  simp [getRegionFromDepartement, hd]

/-- Witness for the amended claim C9 at a concrete input: the record with no
department produces an entity whose region is the table lookup fallback. -/
theorem region_from_department_table_witness :
    (mutationToProperty "abc123def" 0 noDeptMutation).map Property.region
      = some (getRegionFromDepartement noDeptMutation.code_departement) := by
  obtain ⟨p, hp⟩ := Option.isSome_iff_exists.mp
    (show (mutationToProperty "abc123def" 0 noDeptMutation).isSome = true by decide)
  rw [hp, Option.map_some']
  exact congrArg some (region_from_department_table "abc123def" 0 noDeptMutation p hp).1

theorem schedStep_inv (st : SchedState × ℕ) (ev : SchedEvent) (h : schedInv st) :
    schedInv (schedStep st ev).1 := by
  unfold schedInv at h ⊢
  cases ev with
  | trigger =>
      by_cases hr : st.1.isRunning
      · simp [schedStep, triggerStep, hr, h]
      · simp only [Bool.not_eq_true] at hr
        simp [schedStep, triggerStep, hr] at h ⊢
        simp [h]
  | finish c =>
      by_cases hz : st.2 = 0
      · simpa [schedStep, hz] using h
      · have h1 : st.2 = 1 := by
          by_cases hr : st.1.isRunning <;> simp [hr] at h <;> omega
        cases c <;> simp [schedStep, hz, finishStep, h1]

theorem schedRun_inv (evs : List SchedEvent) :
    ∀ st : SchedState × ℕ, schedInv st → schedInv (schedRun st evs).1 := by
  induction evs with
  | nil => intro st h; exact h
  | cons ev rest ih => intro st h; exact ih _ (schedStep_inv st ev h)

theorem schedRun_triggers_running (n : ℕ) :
    ∀ (s : SchedState) (fl : ℕ), s.isRunning = true →
      schedRun (s, fl) (List.replicate n SchedEvent.trigger)
        = ((s, fl), List.replicate n TriggerOutcome.alreadyRunning) := by
  induction n with
  | zero => intro s fl _; rfl
  | succ k ih =>
      intro s fl h
      have h1 : schedStep (s, fl) SchedEvent.trigger
          = ((s, fl), some TriggerOutcome.alreadyRunning) := by
        simp [schedStep, triggerStep, h]
      rw [List.replicate_succ]
      simp [schedRun, h1, ih s fl h, List.replicate_succ]

/-- Claim C4: single-flight guard.  (1) Along every event trace from the
initial state at most one `scrapeAll()` invocation is ever in flight.
(2) A trigger arriving while a run is in progress changes nothing and its
caller is told `alreadyRunning` (nothing is queued or retried).  (3) Any
number `n` of consecutive triggers arriving at an idle scheduler produce
exactly one `started` outcome — the first — and `n - 1` `alreadyRunning`
outcomes. -/
theorem scheduler_single_flight :
    (∀ evs : List SchedEvent, (schedRun (initialSchedState, 0) evs).1.2 ≤ 1)
    ∧ (∀ (s : SchedState) (fl : ℕ), s.isRunning = true →
        schedRun (s, fl) [SchedEvent.trigger] = ((s, fl), [TriggerOutcome.alreadyRunning]))
    ∧ (∀ (s : SchedState) (n : ℕ), s.isRunning = false → 0 < n →
        (schedRun (s, 0) (List.replicate n SchedEvent.trigger)).2
          = TriggerOutcome.started :: List.replicate (n - 1) TriggerOutcome.alreadyRunning
        ∧ (schedRun (s, 0)
            (List.replicate n SchedEvent.trigger)).2.count TriggerOutcome.started = 1
        ∧ (schedRun (s, 0)
            (List.replicate n SchedEvent.trigger)).2.count TriggerOutcome.alreadyRunning
          = n - 1) := by
  refine ⟨?_, ?_, ?_⟩
  · intro evs
    have h := schedRun_inv evs (initialSchedState, 0) rfl
    unfold schedInv at h
    rw [h]
    by_cases hr : (schedRun (initialSchedState, 0) evs).1.1.isRunning <;> simp [hr]
  · intro s fl h
    have h1 : schedStep (s, fl) SchedEvent.trigger
        = ((s, fl), some TriggerOutcome.alreadyRunning) := by
      simp [schedStep, triggerStep, h]
    simp [schedRun, h1]
  · intro s n h hn
    obtain ⟨k, rfl⟩ : ∃ k, n = k + 1 := ⟨n - 1, (Nat.succ_pred_eq_of_pos hn).symm⟩
    have h1 : schedStep (s, 0) SchedEvent.trigger
        = (({ s with isRunning := true }, 1), some TriggerOutcome.started) := by
      simp [schedStep, triggerStep, h]
    have h2 := schedRun_triggers_running k { s with isRunning := true } 1 rfl
    have hlist : (schedRun (s, 0) (List.replicate (k + 1) SchedEvent.trigger)).2
        = TriggerOutcome.started :: List.replicate k TriggerOutcome.alreadyRunning := by
      rw [List.replicate_succ]
      simp [schedRun, h1, h2]
    refine ⟨by simpa using hlist, ?_, ?_⟩ <;>
      rw [hlist] <;> simp [List.count_cons, List.count_replicate]

/-- Witness for claim C4 at concrete inputs: a trigger against a running
scheduler is a reported no-op, and three triggers against an idle scheduler
produce exactly one `started`. -/
theorem scheduler_single_flight_witness :
    schedRun ({ isRunning := true, lastRun := none, lastResult := none }, 1)
        [SchedEvent.trigger]
      = (({ isRunning := true, lastRun := none, lastResult := none }, 1),
         [TriggerOutcome.alreadyRunning])
    ∧ (schedRun (initialSchedState, 0)
        (List.replicate 3 SchedEvent.trigger)).2.count TriggerOutcome.started = 1 :=
  ⟨scheduler_single_flight.2.1 _ 1 rfl,
   (scheduler_single_flight.2.2 initialSchedState 3 rfl (by decide)).2.1⟩

/-- Claim C10: when the in-flight `scrapeAll()` rejects, `runScraping`
returns `null` and leaves `lastRun` and `lastResult` exactly as the last
completed run left them (clearing only the running flag); only a completed
run writes those two fields. -/
theorem failed_run_preserves_last_result (s : SchedState) (e : String) (t : ℕ)
    (r : ScrapeSummary) (h : s.isRunning = false) :
    (runScraping s (Except.error e)).2 = none
    ∧ (runScraping s (Except.error e)).1.lastRun = s.lastRun
    ∧ (runScraping s (Except.error e)).1.lastResult = s.lastResult
    ∧ (runScraping s (Except.error e)).1.isRunning = false
    ∧ (runScraping s (Except.ok (t, r))).1.lastRun = some t
    ∧ (runScraping s (Except.ok (t, r))).1.lastResult = some r := by
  simp [runScraping, finishStep, h]

/-- Witness for claim C10 at a concrete input: a scheduler that last
recorded run 5 with `sampleSummary` keeps both after a failed run. -/
theorem failed_run_preserves_last_result_witness :
    (runScraping { isRunning := false, lastRun := some 5, lastResult := some sampleSummary }
        (Except.error "boom")).1.lastRun = some 5
    ∧ (runScraping { isRunning := false, lastRun := some 5, lastResult := some sampleSummary }
        (Except.error "boom")).1.lastResult = some sampleSummary :=
  ⟨(failed_run_preserves_last_result _ "boom" 0 sampleSummary rfl).2.1,
   (failed_run_preserves_last_result _ "boom" 0 sampleSummary rfl).2.2.1⟩

theorem scrapeAllProperties_congr (f1 f2 : String → ℕ → Except String (Option (List Mutation)))
    (seeds : String → ℕ → ℕ → String) (now : ℕ)
    (h : ∀ d a, scrapeDepartement f1 d a = scrapeDepartement f2 d a) :
    scrapeAllProperties f1 seeds now = scrapeAllProperties f2 seeds now := by
  unfold scrapeAllProperties
  simp only [h]

theorem scrapeAllProperties_empty (fetch : String → ℕ → Except String (Option (List Mutation)))
    (seeds : String → ℕ → ℕ → String) (now : ℕ)
    (hz : ∀ d a, scrapeDepartement fetch d a = []) :
    scrapeAllProperties fetch seeds now = [] := by
  unfold scrapeAllProperties
  simp [ANNEES, DEPARTEMENTS, hz]

theorem upsertStep_foldl_sum {DB : Type} (upsert : DB → Property → Except Unit DB)
    (props : List Property) :
    ∀ acc : DB × ℕ × ℕ,
      (props.foldl (upsertStep upsert) acc).2.1 + (props.foldl (upsertStep upsert) acc).2.2
        = acc.2.1 + acc.2.2 + props.length := by
  induction props with
  | nil => intro acc; simp
  | cons p t ih =>
      intro acc
      rw [List.foldl_cons, ih]
      unfold upsertStep
      cases upsert acc.1 p <;> simp <;> omega

theorem upsertStep_foldl_counts {DB : Type} (fails : Property → Bool) (props : List Property) :
    ∀ acc : DB × ℕ × ℕ,
      ((props.foldl (upsertStep
            (fun db2 p => if fails p then Except.error () else Except.ok db2)) acc).2.1
          = acc.2.1 + (props.filter (fun p => !fails p)).length)
      ∧ ((props.foldl (upsertStep
            (fun db2 p => if fails p then Except.error () else Except.ok db2)) acc).2.2
          = acc.2.2 + (props.filter fails).length) := by
  induction props with
  | nil => intro acc; simp
  | cons p t ih =>
      intro acc
      rw [List.foldl_cons]
      by_cases hf : fails p
      · have hstep : upsertStep
            (fun db2 q => if fails q then Except.error () else Except.ok db2) acc p
            = (acc.1, acc.2.1, acc.2.2 + 1) := by
          simp [upsertStep, hf]
        rw [hstep]
        refine ⟨?_, ?_⟩
        · rw [(ih _).1]; simp [List.filter_cons, hf]
        · rw [(ih _).2]; simp [List.filter_cons, hf]; omega
      · have hstep : upsertStep
            (fun db2 q => if fails q then Except.error () else Except.ok db2) acc p
            = (acc.1, acc.2.1 + 1, acc.2.2) := by
          simp [upsertStep, hf]
        rw [hstep]
        refine ⟨?_, ?_⟩
        · rw [(ih _).1]; simp [List.filter_cons, hf]; omega
        · rw [(ih _).2]; simp [List.filter_cons, hf]

/-- Claim C6: bulk persistence is per-entity fault tolerant and fully
accounted.  For every upsert oracle the loop visits every entity and
`saved + errors` equals the number of entities passed in; when the oracle
fails on exactly the entities satisfying `fails`, the counts are exactly the
number of non-failing and failing entities (failures are counted and
skipped, never fatal); and the run summary of `scrapeAll` satisfies
`saved + errors = total`. -/
theorem saveProperties_accounting {DB : Type} (upsert : DB → Property → Except Unit DB)
    (db : DB) (properties : List Property) (fails : Property → Bool)
    (fetch : String → ℕ → Except String (Option (List Mutation)))
    (seeds : String → ℕ → ℕ → String) (now : ℕ) :
    ((saveProperties upsert db properties).2.1 + (saveProperties upsert db properties).2.2
        = properties.length)
    ∧ (saveProperties (fun db2 p => if fails p then Except.error () else Except.ok db2)
          db properties).2.1 = (properties.filter (fun p => !fails p)).length
    ∧ (saveProperties (fun db2 p => if fails p then Except.error () else Except.ok db2)
          db properties).2.2 = (properties.filter fails).length
    ∧ ((scrapeAll fetch seeds now upsert db).2.saved
          + (scrapeAll fetch seeds now upsert db).2.errors
        = (scrapeAll fetch seeds now upsert db).2.total) := by
  refine ⟨?_, ?_, ?_, ?_⟩
  · simpa using upsertStep_foldl_sum upsert properties (db, 0, 0)
  · simpa using (upsertStep_foldl_counts fails properties (db, 0, 0)).1
  · simpa using (upsertStep_foldl_counts fails properties (db, 0, 0)).2
  · unfold scrapeAll
    generalize scrapeAllProperties fetch seeds now = props
    simpa [saveProperties] using upsertStep_foldl_sum upsert props (db, 0, 0)

/-- Claim C5: per-partition failure isolation and non-fatal cycles.
(1) Failing the fetch of one `(department, year)` partition produces exactly
the same accumulated entity list as that partition's fetch returning no
records — the other partitions are unaffected.  (2) If every partition fetch
fails, the run still completes, returning a summary with `total = 0`,
`saved = 0`, `errors = 0` and an unchanged database.  (3) After the run
completes, the Scheduler is idle again. -/
theorem partition_failure_isolation {DB : Type}
    (fetch : String → ℕ → Except String (Option (List Mutation)))
    (seeds : String → ℕ → ℕ → String) (now : ℕ)
    (upsert : DB → Property → Except Unit DB) (db : DB) (s : SchedState)
    (e d0 : String) (a0 : ℕ) :
    (scrapeAllProperties
        (fun d a => if d = d0 ∧ a = a0 then Except.error e else fetch d a) seeds now
      = scrapeAllProperties
        (fun d a => if d = d0 ∧ a = a0 then Except.ok (some []) else fetch d a) seeds now)
    ∧ ((∀ d a, ∃ msg, fetch d a = Except.error msg) →
        (scrapeAll fetch seeds now upsert db).2.total = 0
        ∧ (scrapeAll fetch seeds now upsert db).2.saved = 0
        ∧ (scrapeAll fetch seeds now upsert db).2.errors = 0
        ∧ (scrapeAll fetch seeds now upsert db).1 = db)
    ∧ (s.isRunning = false →
        (runScraping s
          (Except.ok (now, (scrapeAll fetch seeds now upsert db).2))).1.isRunning = false) := by
  refine ⟨?_, ?_, ?_⟩
  · apply scrapeAllProperties_congr
    intro d a
    by_cases hda : d = d0 ∧ a = a0
    · simp [scrapeDepartement, hda]
    · simp [scrapeDepartement, hda]
  · intro H
    have hz : ∀ d a, scrapeDepartement fetch d a = [] := by
      intro d a
      obtain ⟨msg, hm⟩ := H d a
      simp [scrapeDepartement, hm]
    have hempty := scrapeAllProperties_empty fetch seeds now hz
    refine ⟨?_, ?_, ?_, ?_⟩ <;> simp [scrapeAll, hempty, saveProperties]
  · intro h
    simp [runScraping, finishStep, h]

/-- Witness for claim C5 at concrete inputs: with a fetch oracle that fails
on every partition, the run yields `saved = 0` and leaves the Scheduler
idle. -/
theorem partition_failure_isolation_witness :
    (scrapeAll (fun _ _ => Except.error "network") (fun _ _ _ => "seed") 0
        (fun (db : ℕ) _ => Except.ok (db + 1)) 0).2.saved = 0
    ∧ (runScraping initialSchedState
        (Except.ok (0, (scrapeAll (fun _ _ => Except.error "network") (fun _ _ _ => "seed") 0
          (fun (db : ℕ) _ => Except.ok (db + 1)) 0).2))).1.isRunning = false :=
  ⟨((partition_failure_isolation (fun _ _ => Except.error "network") (fun _ _ _ => "seed") 0
      (fun (db : ℕ) _ => Except.ok (db + 1)) 0 initialSchedState "e" "d" 0).2.1
      (fun _ _ => ⟨"network", rfl⟩)).2.1,
   (partition_failure_isolation (fun _ _ => Except.error "network") (fun _ _ _ => "seed") 0
      (fun (db : ℕ) _ => Except.ok (db + 1)) 0 initialSchedState "e" "d" 0).2.2 rfl⟩

theorem roundedDistanceKm_zero : roundedDistanceKm 0 = 0 := by
  rw [roundedDistanceKm, jsRound_eq_floor]
  norm_num

theorem lt_roundedDistanceKm_of_le (r d : ℚ) (h : r + 1/200 ≤ d) :
    r < roundedDistanceKm d := by
  rw [roundedDistanceKm, jsRound_eq_floor]
  have h1 : (100 : ℚ) * r + 1 ≤ d * 100 + 1/2 := by linarith
  have h2 : (100 : ℚ) * r < (Int.floor (d * 100 + 1/2) : ℚ) := by
    have h3 := Int.lt_floor_add_one (d * 100 + 1/2)
    linarith
  rw [lt_div_iff (by norm_num : (0 : ℚ) < 100)]
  linarith

/-- Claim C8 (counterexample): with radius 5 km, a row at true haversine
distance 5.002 km — strictly greater than the radius — is returned by the
pipeline, because the filter compares the 2-decimal rounded reported
distance (5.00) with the radius. -/
theorem geo_includes_point_beyond_radius :
    (5 : ℚ) < 2501/500
    ∧ geoFilterSort (5 : ℚ) [((0 : ℕ), (2501/500 : ℚ))] = [((0 : ℕ), (5 : ℚ))] := by
  constructor
  · norm_num
  · have hr : roundedDistanceKm (2501/500) = 5 := by
      rw [roundedDistanceKm, jsRound_eq_floor]
      norm_num
    simp [geoFilterSort, hr, List.filter]

/-- Claim C8 (amended): over the rows fetched by the pruned query, (1) a row
at true distance 0 is in the result for any positive radius; (2) every
returned row's reported distance is at most the radius, and a row at true
distance at least `radius + 0.005` is never returned — but the filter
compares the half-up 2-decimal rounded distance to the radius, so a true
distance in `(radius, radius + 0.005)` can be included; (3) the result is
sorted ascending by the reported distance. -/
theorem geo_radius_boundary {α : Type} (radiusKm : ℚ) (rows : List (α × ℚ))
    (x : α) (d : ℚ) :
    ((x, (0 : ℚ)) ∈ rows → 0 < radiusKm → (x, (0 : ℚ)) ∈ geoFilterSort radiusKm rows)
    ∧ (∀ y ∈ geoFilterSort radiusKm rows, y.2 ≤ radiusKm)
    ∧ (radiusKm + 1/200 ≤ d → (x, roundedDistanceKm d) ∉ geoFilterSort radiusKm rows)
    ∧ List.Pairwise (fun a b : α × ℚ => a.2 ≤ b.2) (geoFilterSort radiusKm rows) := by
  have hmem : ∀ y, y ∈ geoFilterSort radiusKm rows ↔
      y ∈ (rows.map (fun rd => (rd.1, roundedDistanceKm rd.2))).filter
        (fun rd => decide (rd.2 ≤ radiusKm)) := by
    intro y
    exact (List.mergeSort_perm _ _).mem_iff
  refine ⟨?_, ?_, ?_, ?_⟩
  · intro hx hr
    rw [hmem]
    apply List.mem_filter.mpr
    constructor
    · have := List.mem_map_of_mem (fun rd : α × ℚ => (rd.1, roundedDistanceKm rd.2)) hx
      simpa [roundedDistanceKm_zero] using this
    · simpa using le_of_lt hr
  · intro y hy
    have := (List.mem_filter.mp ((hmem y).mp hy)).2
    simpa using this
  · intro hd hy
    have := (List.mem_filter.mp ((hmem _).mp hy)).2
    have h2 : roundedDistanceKm d ≤ radiusKm := by simpa using this
    exact absurd h2 (not_le.mpr (lt_roundedDistanceKm_of_le radiusKm d hd))
  · have htrans : ∀ a b c : α × ℚ,
        (fun u v : α × ℚ => decide (u.2 ≤ v.2)) a b = true →
        (fun u v : α × ℚ => decide (u.2 ≤ v.2)) b c = true →
        (fun u v : α × ℚ => decide (u.2 ≤ v.2)) a c = true := by
      intro a b c hab hbc
      simp only [decide_eq_true_eq] at hab hbc ⊢
      exact le_trans hab hbc
    have htotal : ∀ a b : α × ℚ,
        ((fun u v : α × ℚ => decide (u.2 ≤ v.2)) a b
          || (fun u v : α × ℚ => decide (u.2 ≤ v.2)) b a) = true := by
      intro a b
      by_cases h : a.2 ≤ b.2
      · simp [h]
      · simp [le_of_not_le h]
    have hs := @List.sorted_mergeSort (α × ℚ) (fun u v => decide (u.2 ≤ v.2))
      htrans htotal
      ((rows.map (fun rd => (rd.1, roundedDistanceKm rd.2))).filter
        (fun rd => decide (rd.2 ≤ radiusKm)))
    exact List.Pairwise.imp (fun h => of_decide_eq_true h) hs

/-- Witness for the amended claim C8 at concrete inputs: a row at distance 0
is kept for radius 5, and a row at distance 6 (at least 5 + 0.005 beyond) is
dropped. -/
theorem geo_radius_boundary_witness :
    ((0 : ℕ), (0 : ℚ)) ∈ geoFilterSort (5 : ℚ) [((0 : ℕ), (0 : ℚ))]
    ∧ ((1 : ℕ), roundedDistanceKm 6) ∉ geoFilterSort (5 : ℚ) [((1 : ℕ), (6 : ℚ))] :=
  ⟨(geo_radius_boundary 5 [((0 : ℕ), 0)] 0 0).1 (by simp) (by norm_num),
   (geo_radius_boundary 5 [((1 : ℕ), 6)] 1 6).2.2.1 (by norm_num)⟩

theorem listRangeMapSum (f : ℕ → ℕ) (n : ℕ) :
    ((List.range n).map f).sum = ∑ i ∈ Finset.range n, f i := by
  induction n with
  | zero => simp
  | succ k ih =>
      rw [List.range_succ, List.map_append, List.sum_append, Finset.sum_range_succ, ih]
      simp

theorem headD_le_of_sorted (l : List ℚ) (hs : l.Sorted (· ≤ ·)) (x : ℚ) (hx : x ∈ l) :
    l.headD 0 ≤ x := by
  cases l with
  | nil => cases hx
  | cons a t =>
      rcases List.mem_cons.mp hx with rfl | hx2
      · exact le_refl x
      · exact (List.pairwise_cons.mp hs).1 x hx2

theorem le_getLastD_of_sorted (l : List ℚ) : ∀ d x : ℚ, l.Sorted (· ≤ ·) → x ∈ l →
    x ≤ l.getLastD d := by
  induction l with
  | nil => intro d x _ hx; cases hx
  | cons a t ih =>
      intro d x hs hx
      rw [List.getLastD_cons]
      rcases List.mem_cons.mp hx with rfl | hx2
      · cases t with
        | nil => exact le_refl x
        | cons b t2 =>
            have hab : x ≤ b := (List.pairwise_cons.mp hs).1 b (by simp)
            exact le_trans hab (ih x b hs.of_cons (by simp))
      · exact ih a x hs.of_cons hx2

theorem getLastD_mem_of_ne_nil (l : List ℚ) (hne : l ≠ []) : ∀ d : ℚ, l.getLastD d ∈ l := by
  induction l with
  | nil => exact absurd rfl hne
  | cons a t ih =>
      intro d
      rw [List.getLastD_cons]
      cases t with
      | nil => simp [List.getLastD]
      | cons b t2 => exact List.mem_cons_of_mem a (ih (List.cons_ne_nil b t2) a)

theorem sortPrices_sorted (l : List ℚ) : (sortPrices l).Sorted (· ≤ ·) := by
  have h := @List.sorted_mergeSort ℚ (fun a b => decide (a ≤ b))
    (fun a b c hab hbc => by
      simp only [decide_eq_true_eq] at hab hbc ⊢
      exact le_trans hab hbc)
    (fun a b => by
      by_cases hab : a ≤ b
      · simp [hab]
      · simp [le_of_not_le hab])
    l
  exact List.Pairwise.imp (fun hab => of_decide_eq_true hab) h

theorem bucket_indicator_unique (lo hi p : ℚ) (N : ℕ) (hN : 0 < N)
    (h1 : lo ≤ p) (h2 : p ≤ hi) :
    ∑ i ∈ Finset.range N,
      (if bucketPred lo ((hi - lo) / (N : ℚ)) N i p then 1 else 0) = 1 := by
  have hNq : (0 : ℚ) < (N : ℚ) := by exact_mod_cast hN
  have hlohi : lo ≤ hi := le_trans h1 h2
  set h : ℚ := (hi - lo) / (N : ℚ) with hh
  have hh0 : 0 ≤ h := div_nonneg (by linarith) (le_of_lt hNq)
  have haN : lo + (N : ℚ) * h = hi := by
    rw [hh]
    field_simp
  rcases eq_or_lt_of_le hlohi with heq | hlt
  · have hp : p = lo := le_antisymm (heq ▸ h2) h1
    have hzero : h = 0 := by
      rw [hh, ← heq]
      simp
    have hpoint : ∀ i ∈ Finset.range N,
        (if bucketPred lo h N i p then 1 else 0) = if i = N - 1 then 1 else 0 := by
      intro i _
      by_cases hlast : i = N - 1
      · simp [bucketPred, hlast, hzero, hp]
      · simp [bucketPred, hlast, hzero, hp]
    rw [Finset.sum_congr rfl hpoint, Finset.sum_ite_eq' (Finset.range N) (N - 1)
      (fun _ => 1)]
    simp [Finset.mem_range, Nat.sub_lt hN Nat.one_pos]
  · have hhpos : 0 < h := by
      rw [hh]
      exact div_pos (by linarith) hNq
    set K : ℤ := Int.floor ((p - lo) / h) with hK
    have hK0 : 0 ≤ K := Int.floor_nonneg.mpr (div_nonneg (by linarith) (le_of_lt hhpos))
    set k : ℕ := K.toNat with hk
    have hkK : ((k : ℤ) : ℚ) = (K : ℚ) := by
      rw [hk]
      exact_mod_cast congrArg Int.cast (Int.toNat_of_nonneg hK0)
    have hak : lo + (k : ℚ) * h ≤ p := by
      have hfl : ((K : ℚ)) ≤ (p - lo) / h := Int.floor_le _
      have : (k : ℚ) ≤ (p - lo) / h := by
        rw [show ((k : ℕ) : ℚ) = ((k : ℤ) : ℚ) by push_cast; rfl, hkK]
        exact hfl
      have := (le_div_iff hhpos).mp this
      linarith
    have hak1 : p < lo + ((k : ℚ) + 1) * h := by
      have hfl : (p - lo) / h < (K : ℚ) + 1 := Int.lt_floor_add_one _
      have : (p - lo) / h < (k : ℚ) + 1 := by
        rw [show ((k : ℕ) : ℚ) = ((k : ℤ) : ℚ) by push_cast; rfl, hkK]
        exact hfl
      have := (div_lt_iff hhpos).mp this
      linarith
    have hmono : ∀ i j : ℕ, i ≤ j → lo + (i : ℚ) * h ≤ lo + (j : ℚ) * h := by
      intro i j hij
      have hcast : (i : ℚ) ≤ (j : ℚ) := by exact_mod_cast hij
      have := mul_le_mul_of_nonneg_right hcast hh0
      linarith
    set i0 : ℕ := min k (N - 1) with hi0
    have hi0k : i0 ≤ k := min_le_left _ _
    have hi0N1 : i0 ≤ N - 1 := min_le_right _ _
    have hi0N : i0 < N := lt_of_le_of_lt hi0N1 (Nat.sub_lt hN Nat.one_pos)
    have hi0cases : i0 = k ∨ (i0 = N - 1 ∧ N - 1 ≤ k) := by
      rcases le_total k (N - 1) with hc | hc
      · exact Or.inl (min_eq_left hc)
      · exact Or.inr ⟨min_eq_right hc, hc⟩
    have hai0 : lo + (i0 : ℚ) * h ≤ p := le_trans (hmono i0 k hi0k) hak
    have hmain : bucketPred lo h N i0 p = true := by
      unfold bucketPred
      by_cases hlast : i0 = N - 1
      · have hcast : (i0 : ℚ) + 1 = (N : ℚ) := by
          have : i0 + 1 = N := by omega
          exact_mod_cast this
        rw [if_pos hlast]
        have hple : p ≤ lo + ((i0 : ℚ) + 1) * h := by
          rw [hcast, haN]
          exact h2
        simp [hai0, hple]
      · have hik : i0 = k := by
          rcases hi0cases with hc | hc
          · exact hc
          · exact absurd hc.1 hlast
        rw [if_neg hlast]
        have hplt : p < lo + ((i0 : ℚ) + 1) * h := by
          rw [hik]
          exact hak1
        simp [hai0, hplt]
    have hside : ∀ j ∈ Finset.range N, j ≠ i0 →
        (if bucketPred lo h N j p then 1 else 0) = 0 := by
      intro j hjN hji
      have hjN2 : j < N := Finset.mem_range.mp hjN
      rcases lt_or_gt_of_ne hji with hlt2 | hgt
      · have hj_ne_last : j ≠ N - 1 := by omega
        have hja : lo + ((j : ℚ) + 1) * h ≤ p := by
          have h5 : j + 1 ≤ i0 := hlt2
          have h6 := hmono (j + 1) i0 h5
          push_cast at h6
          linarith
        have hfalse : bucketPred lo h N j p = false := by
          simp [bucketPred, hj_ne_last, not_lt.mpr hja]
        simp [hfalse]
      · have hik : i0 = k := by
          rcases hi0cases with hc | hc
          · exact hc
          · exfalso
            omega
        have hkj : k + 1 ≤ j := by omega
        have hplt : p < lo + (j : ℚ) * h := by
          have h6 := hmono (k + 1) j hkj
          push_cast at h6
          linarith
        have hfalse : bucketPred lo h N j p = false := by
          simp [bucketPred, not_le.mpr hplt]
        simp [hfalse]
    rw [Finset.sum_eq_single_of_mem i0 (Finset.mem_range.mpr hi0N) hside, hmain]
    simp

theorem countP_sum_eq_length (pred : ℕ → ℚ → Bool) (N : ℕ) (l : List ℚ)
    (H : ∀ p ∈ l, ∑ i ∈ Finset.range N, (if pred i p then 1 else 0) = 1) :
    ∑ i ∈ Finset.range N, (l.filter (pred i)).length = l.length := by
  induction l with
  | nil => simp
  | cons p t ih =>
      have ht : ∀ q ∈ t, ∑ i ∈ Finset.range N, (if pred i q then 1 else 0) = 1 :=
        fun q hq => H q (List.mem_cons_of_mem p hq)
      have hp := H p (List.mem_cons_self p t)
      calc ∑ i ∈ Finset.range N, ((p :: t).filter (pred i)).length
          = ∑ i ∈ Finset.range N,
              ((if pred i p then 1 else 0) + (t.filter (pred i)).length) := by
            apply Finset.sum_congr rfl
            intro i _
            by_cases hpi : pred i p <;> simp [List.filter_cons, hpi] <;> omega
        _ = (∑ i ∈ Finset.range N, (if pred i p then 1 else 0))
              + ∑ i ∈ Finset.range N, (t.filter (pred i)).length :=
            Finset.sum_add_distrib
        _ = 1 + t.length := by rw [hp, ih ht]
        _ = (p :: t).length := by
            rw [List.length_cons]
            omega

/-- Claim C7: histogram conservation.  For every non-empty price list and
positive bucket count, (1) the bucket counts of the price-distribution
histogram sum to the number of prices — each price is counted in exactly one
of the equal-width intervals, the last being closed at `max`; (2) the
maximum price satisfies the last bucket's membership predicate; (3) the last
bucket's count, as computed by the route, is positive (the maximum is never
lost). -/
theorem price_distribution_conservation (prices0 : List ℚ) (buckets : ℕ)
    (hb : 0 < buckets) (hne : prices0 ≠ []) :
    (((priceDistribution prices0 buckets).map PriceBucket.count).sum = prices0.length)
    ∧ bucketPred ((sortPrices prices0).headD 0)
        (((sortPrices prices0).getLastD 0 - (sortPrices prices0).headD 0) / (buckets : ℚ))
        buckets (buckets - 1) ((sortPrices prices0).getLastD 0) = true
    ∧ 0 < ((sortPrices prices0).filter
        (bucketPred ((sortPrices prices0).headD 0)
          (((sortPrices prices0).getLastD 0 - (sortPrices prices0).headD 0) / (buckets : ℚ))
          buckets (buckets - 1))).length := by
  have hperm : (sortPrices prices0).Perm prices0 := List.mergeSort_perm prices0 _
  have hsorted := sortPrices_sorted prices0
  have hprne : sortPrices prices0 ≠ [] := by
    intro h0
    exact hne (List.Perm.eq_nil (h0 ▸ hperm).symm)
  have hie : (sortPrices prices0).isEmpty = false := by
    cases hl : sortPrices prices0 with
    | nil => exact absurd hl hprne
    | cons a t => rfl
  set mn : ℚ := (sortPrices prices0).headD 0 with hmn
  set mx : ℚ := (sortPrices prices0).getLastD 0 with hmx
  have hmxmem : mx ∈ sortPrices prices0 := getLastD_mem_of_ne_nil _ hprne 0
  have hlb : ∀ p ∈ sortPrices prices0, mn ≤ p :=
    fun p hp => headD_le_of_sorted _ hsorted p hp
  have hub : ∀ p ∈ sortPrices prices0, p ≤ mx :=
    fun p hp => le_getLastD_of_sorted _ 0 p hsorted hp
  have hmnmx : mn ≤ mx := hlb mx hmxmem
  have hNq : (0 : ℚ) < (buckets : ℚ) := by exact_mod_cast hb
  have hh0 : 0 ≤ (mx - mn) / (buckets : ℚ) := div_nonneg (by linarith) (le_of_lt hNq)
  have haN : mn + (buckets : ℚ) * ((mx - mn) / (buckets : ℚ)) = mx := by
    field_simp
  have hlast : bucketPred mn ((mx - mn) / (buckets : ℚ)) buckets (buckets - 1) mx
      = true := by
    have hcast : ((buckets - 1 : ℕ) : ℚ) ≤ (buckets : ℚ) := by
      exact_mod_cast Nat.sub_le buckets 1
    have hcast2 : ((buckets - 1 : ℕ) : ℚ) + 1 = (buckets : ℚ) := by
      have : buckets - 1 + 1 = buckets := by omega
      exact_mod_cast this
    have hle1 : mn + ((buckets - 1 : ℕ) : ℚ) * ((mx - mn) / (buckets : ℚ)) ≤ mx := by
      have := mul_le_mul_of_nonneg_right hcast hh0
      linarith
    have hle2 : mx ≤ mn + (((buckets - 1 : ℕ) : ℚ) + 1) * ((mx - mn) / (buckets : ℚ)) := by
      rw [hcast2, haN]
    simp [bucketPred, hle1, hle2]
  refine ⟨?_, hlast, ?_⟩
  · have hcount : (priceDistribution prices0 buckets).map PriceBucket.count
        = (List.range buckets).map (fun i => ((sortPrices prices0).filter
            (bucketPred mn ((mx - mn) / (buckets : ℚ)) buckets i)).length) := by
      unfold priceDistribution
      rw [if_neg (by simp [hie])]
      rw [List.map_map]
      rfl
    rw [hcount, listRangeMapSum, countP_sum_eq_length _ _ _
      (fun p hp => bucket_indicator_unique mn mx p buckets hb (hlb p hp) (hub p hp)),
      hperm.length_eq]
  · exact List.length_pos_of_mem (List.mem_filter.mpr ⟨hmxmem, hlast⟩)

/-- Witness for claim C7 at a concrete input: the one-price list `[3]` with
5 buckets has bucket counts summing to 1. -/
theorem price_distribution_conservation_witness :
    ((priceDistribution [(3 : ℚ)] 5).map PriceBucket.count).sum = 1 := by
  have h := (price_distribution_conservation [(3 : ℚ)] 5 (by decide) (by decide)).1
  simpa using h

end ImmoApi
